import Mathlib

/-!
Verification development for the 12-week program generator and its
rate-limited persistence pipeline (app/services/programGenerator.ts,
app/services/workoutLogs.client.ts, app/services/workouts.client.ts).

The TypeScript source is shallowly embedded: pure functions become Lean
functions, the async write pipeline becomes explicit state passing / a
step relation, and machine numbers become Nat/Int.
-/

namespace ProgramGen

/-- Day types, from `type DayType` in programGenerator.ts. -/
inductive DayType where
  | upper_strength
  | lower_strength
  | upper_hypertrophy
  | lower_hypertrophy
deriving DecidableEq, Repr

/-- Hinge modes, from `type HingeMode = "deadlift" | "paused_rdl"`. -/
inductive HingeMode where
  | deadlift
  | paused_rdl
deriving DecidableEq, Repr

/-- Exercise categories from the `ExerciseSeed` type. -/
inductive Category where
  | compound
  | accessory
  | core
deriving DecidableEq, Repr

/-- `ExerciseSeed` from programGenerator.ts.  `notes` and `substitutions`
are optional fields, embedded as `Option`. -/
structure ExerciseSeed where
  name : String
  category : Category
  sets : Nat
  repMin : Nat
  repMax : Nat
  rirTarget : Nat
  notes : Option String := none
  substitutions : Option (List String) := none
deriving DecidableEq, Repr

/-- JavaScript string truthiness for the optional `notes` field:
`undefined` and the empty string are falsy. -/
def strTruthy : Option String → Bool
  | none => false
  | some s => !(s = "")

/-- `deloadify` from programGenerator.ts:
`sets = Math.max(1, Math.ceil(ex.sets / 2))` (on Nat, ceil(s/2) = (s+1)/2),
`rirTarget = Math.max(ex.rirTarget, 4)`,
`notes = ex.notes ? ex.notes + " (DELOAD)" : "DELOAD"`. -/
def deloadify (ex : ExerciseSeed) : ExerciseSeed :=
  { ex with
    sets := max 1 ((ex.sets + 1) / 2),
    rirTarget := max ex.rirTarget 4,
    notes :=
      if strTruthy ex.notes then some (ex.notes.getD "" ++ " (DELOAD)")
      else some "DELOAD" }

/-- `getDayLabel` from programGenerator.ts. -/
def getDayLabel : DayType → String
  | .upper_strength => "Day 1 – Upper Strength"
  | .lower_strength => "Day 2 – Lower Strength"
  | .upper_hypertrophy => "Day 3 – Upper Hypertrophy"
  | .lower_hypertrophy => "Day 4 – Lower Hypertrophy"

/-- `seedExercises` from programGenerator.ts, transcribed list for list. -/
def seedExercises (dayType : DayType) (hingeMode : HingeMode) : List ExerciseSeed :=
  match dayType with
  | .upper_strength =>
    [ { name := "Incline Press (BB or DB)", category := .compound,
        sets := 4, repMin := 4, repMax := 6, rirTarget := 2 },
      { name := "Pull-ups (weighted if able)", category := .compound,
        sets := 4, repMin := 4, repMax := 6, rirTarget := 2 },
      { name := "Bench Press (or machine press)", category := .compound,
        sets := 3, repMin := 5, repMax := 8, rirTarget := 2 },
      { name := "Chest-supported Row", category := .compound,
        sets := 3, repMin := 5, repMax := 8, rirTarget := 2 },
      { name := "Lateral Raise", category := .accessory,
        sets := 3, repMin := 10, repMax := 15, rirTarget := 1 },
      { name := "Triceps Pressdown", category := .accessory,
        sets := 2, repMin := 8, repMax := 12, rirTarget := 1 },
      { name := "Curl (optional)", category := .accessory,
        sets := 2, repMin := 8, repMax := 12, rirTarget := 1 } ]
  | .lower_strength =>
    [ { name := "Back Squat", category := .compound,
        sets := 4, repMin := 4, repMax := 6, rirTarget := 2 },
      (if hingeMode = .deadlift then
        { name := "Conventional Deadlift (top set + 2 backoffs)", category := .compound,
          sets := 3, repMin := 3, repMax := 5, rirTarget := 2,
          notes := some "Top set 1×3–5 @ 1–2 RIR, then 2 backoffs @ 2–3 RIR" }
      else
        { name := "Paused RDL (2-sec pause mid-shin)", category := .compound,
          sets := 3, repMin := 5, repMax := 8, rirTarget := 2 }),
      { name := "Leg Press", category := .compound,
        sets := 3, repMin := 6, repMax := 10, rirTarget := 2 },
      { name := "Hamstring Curl", category := .accessory,
        sets := 3, repMin := 8, repMax := 12, rirTarget := 1 },
      { name := "Calves", category := .accessory,
        sets := 4, repMin := 8, repMax := 12, rirTarget := 1 },
      { name := "Ab Wheel", category := .core,
        sets := 3, repMin := 6, repMax := 12, rirTarget := 2 },
      { name := "Back Extensions (45°/GHD)", category := .core,
        sets := 2, repMin := 10, repMax := 15, rirTarget := 2 } ]
  | .upper_hypertrophy =>
    [ { name := "DB Bench or Machine Press", category := .compound,
        sets := 3, repMin := 8, repMax := 12, rirTarget := 2 },
      { name := "Lat Pulldown", category := .compound,
        sets := 3, repMin := 10, repMax := 15, rirTarget := 2 },
      { name := "Cable Row / Machine Row", category := .compound,
        sets := 3, repMin := 8, repMax := 12, rirTarget := 2 },
      { name := "Seated DB Shoulder Press", category := .compound,
        sets := 3, repMin := 8, repMax := 12, rirTarget := 2 },
      { name := "Pec Deck / Cable Fly", category := .accessory,
        sets := 2, repMin := 12, repMax := 15, rirTarget := 1 },
      { name := "Lateral Raise", category := .accessory,
        sets := 3, repMin := 12, repMax := 20, rirTarget := 1 },
      { name := "Curl", category := .accessory,
        sets := 3, repMin := 10, repMax := 15, rirTarget := 1 },
      { name := "Overhead Rope Triceps", category := .accessory,
        sets := 3, repMin := 10, repMax := 15, rirTarget := 1 } ]
  | .lower_hypertrophy =>
    [ { name := "Hack Squat or Leg Press", category := .compound,
        sets := 4, repMin := 10, repMax := 15, rirTarget := 2 },
      { name := "Good Morning", category := .compound,
        sets := 3, repMin := 8, repMax := 12, rirTarget := 3,
        notes := some "Always leave 2–3 RIR; progress reps before load" },
      { name := "Walking Lunge or Bulgarian Split Squat", category := .compound,
        sets := 3, repMin := 10, repMax := 12, rirTarget := 2 },
      { name := "Hamstring Curl", category := .accessory,
        sets := 3, repMin := 10, repMax := 15, rirTarget := 1 },
      { name := "Calves", category := .accessory,
        sets := 4, repMin := 10, repMax := 15, rirTarget := 1 },
      { name := "Pallof Press", category := .core,
        sets := 3, repMin := 12, repMax := 15, rirTarget := 2,
        notes := some "Per side" },
      { name := "Farmer Carry (or DB holds)", category := .core,
        sets := 3, repMin := 40, repMax := 60, rirTarget := 2,
        notes := some "Meters OR 30–45 sec holds" } ]

/-- The fixed `dayTypes` cycle from `generate12WeekProgram`. -/
def dayTypes : List DayType :=
  [.upper_strength, .lower_strength, .upper_hypertrophy, .lower_hypertrophy]

/-- `week % 2 === 1 ? "deadlift" : "paused_rdl"` (odd = deadlift). -/
def hingeModeFor (week : Nat) : HingeMode :=
  if week % 2 = 1 then .deadlift else .paused_rdl

/-- A persisted `program_days` document, as created by
`generate12WeekProgram`.  `id` is the store-assigned identifier
(`$id`), modelled as a sequential Nat from the always-succeeding
store. -/
structure ProgramDayRec where
  id : Nat
  programId : String
  weekNumber : Nat
  dayLabel : String
  dayType : DayType
  isDeload : Bool
  hingeMode : Option HingeMode
  orderIndex : Nat
deriving DecidableEq, Repr

/-- A `program_exercises` creation payload, as built inside
`generate12WeekProgram` (`payloads = exercises.map(...)`); the store
id of the day it references is `programDayId`. -/
structure ProgramExerciseRec where
  programDayId : Nat
  name : String
  category : Category
  sets : Nat
  repMin : Nat
  repMax : Nat
  rirTarget : Nat
  notes : Option String
  substitutions : List String
  orderIndex : Nat
deriving DecidableEq, Repr

/-- One (week, day-type) cell of the 12 × 4 generation matrix;
`orderIndex = i + 1` where `i` is the position in `dayTypes`. -/
structure Cell where
  week : Nat
  orderIndex : Nat
  dayType : DayType
deriving DecidableEq, Repr

/-- The cells visited by the nested loops of `generate12WeekProgram`,
in execution order: week 1..12, inside each week the fixed day-type
cycle. -/
def genCells : List Cell :=
  (List.range 12).flatMap (fun wIdx =>
    dayTypes.enum.map (fun p => { week := wIdx + 1, orderIndex := p.1 + 1, dayType := p.2 }))

/-- The ProgramDay document created for the k-th cell (the
always-succeeding store hands out sequential ids, so the k-th day
create returns id `k`). -/
def mkDay (programId : String) (k : Nat) (c : Cell) : ProgramDayRec :=
  { id := k,
    programId := programId,
    weekNumber := c.week,
    dayLabel := getDayLabel c.dayType,
    dayType := c.dayType,
    isDeload := c.week = 6,
    hingeMode := if c.dayType = .lower_strength then some (hingeModeFor c.week) else none,
    orderIndex := c.orderIndex }

/-- `const exercises = isDeload ? baseExercises.map(deloadify) : baseExercises`. -/
def dayExercises (c : Cell) : List ExerciseSeed :=
  let base := seedExercises c.dayType (hingeModeFor c.week)
  if c.week = 6 then base.map deloadify else base

/-- The exercise payload built for seed `ex` at position `exIdx`
(0-based) of the day with store id `dayId`:
`notes: ex.notes ?? null`, `substitutions: ex.substitutions ?? []`,
`orderIndex: exIdx + 1`. -/
def mkPayload (dayId : Nat) (exIdx : Nat) (ex : ExerciseSeed) : ProgramExerciseRec :=
  { programDayId := dayId,
    name := ex.name,
    category := ex.category,
    sets := ex.sets,
    repMin := ex.repMin,
    repMax := ex.repMax,
    rirTarget := ex.rirTarget,
    notes := ex.notes,
    substitutions := ex.substitutions.getD [],
    orderIndex := exIdx + 1 }

/-- All exercise payloads of the k-th cell, in payload-array order. -/
def dayPayloads (k : Nat) (c : Cell) : List ProgramExerciseRec :=
  (dayExercises c).enum.map (fun p => mkPayload k p.1 p.2)

/-- The days created by a full run, in creation order. -/
def genDays (programId : String) : List ProgramDayRec :=
  genCells.enum.map (fun p => mkDay programId p.1 p.2)

/-- The exercises created by a full run, grouped by day in day order. -/
def genExercises : List ProgramExerciseRec :=
  genCells.enum.flatMap (fun p => dayPayloads p.1 p.2)

/-- `createdDays` returned by `generate12WeekProgram` against an
always-succeeding store: the counter is incremented exactly once per
successful day create. -/
def genCreatedDays : Nat := (genDays "").length

/-- `createdExercises` returned against an always-succeeding store:
incremented exactly once per successful exercise create. -/
def genCreatedExercises : Nat := genExercises.length

/-- `totalDays = 12 * dayTypes.length` as precomputed by the source. -/
def totalDays : Nat := 12 * dayTypes.length

/-- `totalExercisesEstimate`, transcribed from the source: per week,
fold the seed-list lengths over the day-type cycle, then sum the 12
weekly totals. -/
def totalExercisesEstimate : Nat :=
  ((List.range 12).map (fun wIdx =>
      dayTypes.foldl (fun acc dt => acc + (seedExercises dt (hingeModeFor (wIdx + 1))).length) 0)
    ).foldl (fun sum n => sum + n) 0

/-- Write-trace events emitted against the store during generation. -/
inductive GenEvent where
  | dayCreate (d : ProgramDayRec)
  | exCreate (e : ProgramExerciseRec)
deriving DecidableEq, Repr

/-- The write trace of a full run.  One day's exercise creates run
through `runPool` with bounded concurrency, so their completion order
is scheduler-dependent; `sched` reorders (or drops/duplicates —
hypotheses restrict it) each day's batch to model an arbitrary
schedule.  The day create itself is awaited before any payload of
that day is built. -/
def genTrace (programId : String)
    (sched : List ProgramExerciseRec → List ProgramExerciseRec) : List GenEvent :=
  genCells.enum.flatMap (fun p =>
    GenEvent.dayCreate (mkDay programId p.1 p.2) ::
      (sched (dayPayloads p.1 p.2)).map GenEvent.exCreate)

/-- `fkOkAux seen t`: every exercise create in `t` references a day id
already created (ids accumulated in `seen`). -/
def fkOkAux : List Nat → List GenEvent → Prop
  | _, [] => True
  | seen, GenEvent.dayCreate d :: rest => fkOkAux (d.id :: seen) rest
  | seen, GenEvent.exCreate e :: rest => e.programDayId ∈ seen ∧ fkOkAux seen rest

/-- The day-before-its-exercises boundary over a whole trace. -/
def fkOk (t : List GenEvent) : Prop := fkOkAux [] t

/-- The pacing pause inside the `runPool` worker:
`if (idx > 0 && idx % 20 === 0) await sleep(200)` — `idx` is the
payload's index within its own day's batch. -/
def pacingDelay (idx : Nat) : Nat :=
  if 0 < idx ∧ idx % 20 = 0 then 200 else 0

/-- Total pacing sleep time over a full generation run. -/
def genPacingTotal : Nat :=
  (genCells.enum.map (fun p =>
      ((List.range (dayPayloads p.1 p.2).length).map pacingDelay).sum)).sum

/-- The effective exercise concurrency of `generate12WeekProgram`:
`Math.max(1, Math.min(args.exerciseConcurrency ?? 3, 5))`. -/
def exerciseConcurrencyOf (c : Option Int) : Int :=
  max 1 (min (c.getD 3) 5)

/-- Number of runners spawned by `runPool` in programGenerator.ts:
`Array.from({ length: Math.max(1, concurrency) }, ...)`. -/
def runPoolRunners (concurrency : Int) : Int := max 1 concurrency

/-- Number of runners spawned by `withConcurrency` in
app/services/workouts.client.ts: the loop bound is `Math.max(1, limit)`;
no upper clamp exists in that function. -/
def withConcurrencyRunners (limit : Int) : Int := max 1 limit

/-- Number of runners spawned by `runWithConcurrency` in
app/services/workoutLogs.client.ts: `Array.from({ length:
Math.max(1, limit) }, ...)`; no upper clamp exists there either. -/
def runWithConcurrencyRunners (limit : Int) : Int := max 1 limit

/-- `upsertSetLogsBulk(inputs, concurrency = 3)` forwards the caller's
concurrency unchanged to `withConcurrency`. -/
def upsertSetLogsBulkRunners (concurrency : Int) : Int :=
  withConcurrencyRunners concurrency

/-- `upsertSetLogs` passes the literal `2` to `runWithConcurrency`. -/
def upsertSetLogsConcurrency : Nat := 2

/-!  Errors thrown by the store, and the two retry wrappers. -/

/-- An error value as inspected by the source: `isRateLimit` reads
`err?.code ?? err?.response?.code` and the message; `withRetry` reads
`e?.code ?? e?.response?.status`. -/
structure AppError where
  code : Option Int := none
  responseCode : Option Int := none
  responseStatus : Option Int := none
  message : String := ""
deriving DecidableEq, Repr

/-- `lst` contains `pat` as a contiguous run. -/
def charsHaveRun (pat : List Char) : List Char → Bool
  | [] => pat.isEmpty
  | c :: rest => (pat.isPrefixOf (c :: rest)) || charsHaveRun pat rest

/-- `String(s).toLowerCase().includes(pat)`. -/
def lowerIncludes (s pat : String) : Bool :=
  charsHaveRun pat.data (s.data.map Char.toLower)

/-- `isRateLimit` from programGenerator.ts:
`code === 429 || String(err?.message ?? "").toLowerCase().includes("rate limit")`
where `code = err?.code ?? err?.response?.code`. -/
def isRateLimit (e : AppError) : Bool :=
  ((e.code.getD (e.responseCode.getD 430)) = 429 : Bool) ||
    lowerIncludes e.message "rate limit"

/-- The retry test of `withRetry` in workoutLogs.client.ts:
`code === 429` with `code = e?.code ?? e?.response?.status` (it throws
when `code !== 429`). -/
def isRetry429 (e : AppError) : Bool :=
  ((e.code.getD (e.responseStatus.getD 430)) = 429 : Bool)

/-- One call to the wrapped `fn` either resolves or rejects; a run of a
retry wrapper is driven by the list of successive call results. -/
abbrev CallTrace (α : Type) : Type := List (Except AppError α)

/-- Shared skeleton of the two retry loops.  `retryable e` decides
whether the error is a rate-limit signal, `canRetry n` whether the
attempt budget allows another call after the n-th failure (0-based),
and `delayFn n` the sleep performed before that retry.  Returns the
final outcome and the list of waits, or `none` when the supplied trace
is shorter than the run. -/
def retryLoop (retryable : AppError → Bool) (canRetry : Nat → Bool)
    (delayFn : Nat → Nat) :
    CallTrace α → Nat → List Nat → Option (Except AppError α × List Nat)
  | [], _, _ => none
  | Except.ok v :: _, _, ws => some (Except.ok v, ws.reverse)
  | Except.error e :: rest, n, ws =>
    if retryable e && canRetry n then
      retryLoop retryable canRetry delayFn rest (n + 1) (delayFn n :: ws)
    else
      some (Except.error e, ws.reverse)

/-- `withBackoff` from programGenerator.ts with its defaults
(`maxRetries = 7`, `baseDelayMs = 650`): on the n-th failure (0-based)
the attempt counter is `n + 1`; it rethrows when
`!isRateLimit(err) || attempt > maxRetries`, otherwise sleeps
`baseDelayMs * 2^(attempt-1) + jitter` with `jitter =
Math.floor(Math.random() * 250)` (supplied here as `jit n < 250`). -/
def withBackoffRun (jit : Nat → Nat) (trace : CallTrace α) :
    Option (Except AppError α × List Nat) :=
  retryLoop isRateLimit (fun n => n + 1 ≤ 7) (fun n => 650 * 2 ^ n + jit n) trace 0 []

/-- `withRetry` from workoutLogs.client.ts with its default
(`tries = 5`): on the n-th failure (0-based, `attempt = n`) it rethrows
when `code !== 429 || attempt >= tries - 1`, otherwise sleeps
`Math.min(4000, 250 * 2^attempt) + Math.floor(Math.random() * 200)`. -/
def withRetryRun (jit : Nat → Nat) (trace : CallTrace α) :
    Option (Except AppError α × List Nat) :=
  retryLoop isRetry429 (fun n => n < 5 - 1) (fun n => min 4000 (250 * 2 ^ n) + jit n) trace 0 []

/-!  The keyed set-log upsert of workoutLogs.client.ts, over a store of
`set_logs` documents. -/

/-- A `set_logs` document (`SetLog` in workoutLogs.client.ts). `id` is
the store document id (`$id`). -/
structure SetLogRec where
  id : Nat
  workoutLogId : String
  programExerciseId : String
  setNumber : Nat
  reps : Option Int
  weight : Option Int
  rir : Option Int
  notes : Option String
deriving DecidableEq, Repr

/-- The `set_logs` collection plus the store's id counter (fresh
document ids are handed out sequentially). -/
structure LogStore where
  nextId : Nat
  docs : List SetLogRec
deriving DecidableEq, Repr

/-- `UpsertSetInput` from workoutLogs.client.ts. -/
structure UpsertSetInput where
  programExerciseId : String
  setNumber : Nat
  reps : Option Int := none
  weight : Option Int := none
  rir : Option Int := none
  notes : Option String := none
deriving DecidableEq, Repr

/-- `listSetLogs`: `Query.equal("workoutLogId", ...)` with
`Query.limit(500)` (the order-by clauses permute equal-key-free
listings and are immaterial to the key map built from them). -/
def listSetLogs (st : LogStore) (workoutLogId : String) : List SetLogRec :=
  (st.docs.filter (fun r => r.workoutLogId = workoutLogId)).take 500

/-- A document matches the composite key `(programExerciseId, setNumber)`. -/
def keyMatches (pe : String) (n : Nat) (r : SetLogRec) : Bool :=
  r.programExerciseId = pe && r.setNumber = n

/-- `existingMap.get(key)` where the map was built by inserting every
listed document under its key — a later duplicate overwrites an
earlier one, hence the fold keeps the last match. -/
def lookupKey (l : List SetLogRec) (pe : String) (n : Nat) : Option SetLogRec :=
  l.foldl (fun acc r => if keyMatches pe n r then some r else acc) none

/-- The field update performed by
`databases.updateDocument(DB_ID, COL_SET_LOGS, found.$id, {reps, weight,
rir, notes})` on one stored document: the document whose id matches
gets the new payload fields; key fields are untouched. -/
def applyPatch (s : UpsertSetInput) (docId : Nat) (r : SetLogRec) : SetLogRec :=
  if r.id = docId then
    { r with reps := s.reps, weight := s.weight, rir := s.rir, notes := s.notes }
  else r

/-- `databases.updateDocument` over the collection. -/
def updateSetLog (st : LogStore) (docId : Nat) (s : UpsertSetInput) : LogStore :=
  { st with docs := st.docs.map (applyPatch s docId) }

/-- `databases.createDocument(DB_ID, COL_SET_LOGS, ID.unique(), {...})`:
a fresh document appended to the collection. -/
def createSetLog (st : LogStore) (workoutLogId : String) (s : UpsertSetInput) : LogStore :=
  { nextId := st.nextId + 1,
    docs := st.docs ++
      [{ id := st.nextId,
         workoutLogId := workoutLogId,
         programExerciseId := s.programExerciseId,
         setNumber := s.setNumber,
         reps := s.reps, weight := s.weight, rir := s.rir, notes := s.notes }] }

/-- `upsertSetLogs`: list the workout's existing set logs once, index
them by `(programExerciseId, setNumber)`, then for each input update
the found document or create a fresh one.  (The source fans the loop
body out through `runWithConcurrency(args.sets, 2, ...)`; each
iteration touches a distinct input, and the lookup map is fixed up
front, so the sequential fold is its per-input semantics.) -/
def upsertSetLogs (st : LogStore) (workoutLogId : String)
    (sets : List UpsertSetInput) : LogStore :=
  let existing := listSetLogs st workoutLogId
  sets.foldl (fun acc s =>
    match lookupKey existing s.programExerciseId s.setNumber with
    | some found => updateSetLog acc found.id s
    | none => createSetLog acc workoutLogId s) st

/-- Documents of a store holding the full composite key
`(workoutLogId, programExerciseId, setNumber)`. -/
def docsForKey (st : LogStore) (wid pe : String) (n : Nat) : List SetLogRec :=
  st.docs.filter (fun r => r.workoutLogId = wid && keyMatches pe n r)

/-!  `runPool` from programGenerator.ts as a small-step system.  A
runner repeatedly executes `const i = nextIndex++;
if (i >= items.length) return; results[i] = await worker(items[i], i);`.
The `nextIndex++` read-and-increment happens atomically between awaits;
a runner then suspends on the worker and later writes `results[i]`.
Scheduling of the runners is arbitrary, so the system is a step
relation and theorems quantify over all interleavings. -/

/-- A snapshot of `runPool`'s mutable state: the shared `nextIndex`
and `results`, plus per-runner status — `tasks[w] = some i` when
runner `w` has claimed index `i` and awaits its worker, `done[w]`
when runner `w` has returned. -/
structure PoolState (R : Type) where
  nextIndex : Nat
  results : List (Option R)
  tasks : List (Option Nat)
  done : List Bool
deriving Repr

/-- One scheduler step of `runPool items worker` (the worker is pure in
this model: the claims concern which value lands in which slot, not
the worker's own effects). -/
inductive PoolStep (items : List T) (worker : T → Nat → R) :
    PoolState R → PoolState R → Prop
  | claim (s : PoolState R) (w : Nat) (hw : w < s.tasks.length)
      (hidle : s.tasks.get ⟨w, hw⟩ = none)
      (hd : w < s.done.length) (hnd : s.done.get ⟨w, hd⟩ = false)
      (hlt : s.nextIndex < items.length) :
      PoolStep items worker s
        { nextIndex := s.nextIndex + 1,
          results := s.results,
          tasks := s.tasks.set w (some s.nextIndex),
          done := s.done }
  | exhaust (s : PoolState R) (w : Nat) (hw : w < s.tasks.length)
      (hidle : s.tasks.get ⟨w, hw⟩ = none)
      (hd : w < s.done.length) (hnd : s.done.get ⟨w, hd⟩ = false)
      (hge : items.length ≤ s.nextIndex) :
      PoolStep items worker s
        { nextIndex := s.nextIndex + 1,
          results := s.results,
          tasks := s.tasks,
          done := s.done.set w true }
  | finish (s : PoolState R) (w : Nat) (hw : w < s.tasks.length)
      (i : Nat) (htask : s.tasks.get ⟨w, hw⟩ = some i) (hi : i < items.length)
      (hr : i < s.results.length) :
      PoolStep items worker s
        { nextIndex := s.nextIndex,
          results := s.results.set i (some (worker (items.get ⟨i, hi⟩) i)),
          tasks := s.tasks.set w none,
          done := s.done }

/-- The state at entry of `runPool`, with
`Math.max(1, concurrency)` runners: `results = new Array(items.length)`,
`nextIndex = 0`, every runner idle. -/
def initPoolState (itemsLen : Nat) (concurrency : Nat) : PoolState R :=
  { nextIndex := 0,
    results := List.replicate itemsLen none,
    tasks := List.replicate (max 1 concurrency) none,
    done := List.replicate (max 1 concurrency) false }

/-- `Promise.all(runners)` has resolved: every runner has returned and
none still holds a claimed index. -/
def PoolDone (s : PoolState R) : Prop :=
  (∀ w, w < s.done.length → s.done.get? w = some true) ∧
  (∀ w, w < s.tasks.length → s.tasks.get? w = some none)

/-!  ## Theorems -/

/-- C1 (counterexample): the claim predicts that when the original
notes are absent the deload transform sets the notes to the
"(DELOAD)" marker; the code sets the bare string "DELOAD" instead,
which is not that marker and does not even contain it. -/
theorem deloadify_absent_notes_counterexample :
    (deloadify { name := "Curl (optional)", category := Category.accessory,
                 sets := 2, repMin := 8, repMax := 12, rirTarget := 1 }).notes
      = some "DELOAD" ∧
    some "DELOAD" ≠ some "(DELOAD)" ∧
    charsHaveRun "(DELOAD)".data "DELOAD".data = false := by
  refine ⟨rfl, by decide, by decide⟩

/-- C1 (amended): `deloadify` halves sets (ceiling, floored at 1),
raises the RIR target to at least 4, appends " (DELOAD)" to present
non-empty notes and sets the notes to the bare string "DELOAD" when
they are absent or empty; every other field is preserved and the
transform is total. -/
theorem deloadify_spec (e : ExerciseSeed) :
    (deloadify e).sets = max 1 ((e.sets + 1) / 2) ∧
    1 ≤ (deloadify e).sets ∧
    e.sets ≤ 2 * (deloadify e).sets ∧
    (deloadify e).rirTarget = max e.rirTarget 4 ∧
    4 ≤ (deloadify e).rirTarget ∧
    e.rirTarget ≤ (deloadify e).rirTarget ∧
    (deloadify e).notes =
      (match e.notes with
        | none => some "DELOAD"
        | some s => if s = "" then some "DELOAD" else some (s ++ " (DELOAD)")) ∧
    (deloadify e).name = e.name ∧
    (deloadify e).category = e.category ∧
    (deloadify e).repMin = e.repMin ∧
    (deloadify e).repMax = e.repMax ∧
    (deloadify e).substitutions = e.substitutions := by
  obtain ⟨nm, cat, st, rmn, rmx, rir, nts, sub⟩ := e
  refine ⟨rfl, ?_, ?_, rfl, ?_, ?_, ?_, rfl, rfl, rfl, rfl, rfl⟩
  · exact Nat.le_max_left 1 _
  · have h1 : st ≤ 2 * ((st + 1) / 2) := by omega
    exact le_trans h1 (Nat.mul_le_mul_left 2 (Nat.le_max_right 1 _))
  · exact Nat.le_max_right _ 4
  · exact Nat.le_max_left _ 4
  · cases nts with
    | none => rfl
    | some s =>
      by_cases hs : s = "" <;>
        simp [deloadify, strTruthy, hs]

/-- C1 (witness). -/
theorem deloadify_spec_witness :
    (deloadify { name := "Back Squat", category := Category.compound,
                 sets := 4, repMin := 4, repMax := 6, rirTarget := 2 }).sets =
      max 1 ((4 + 1) / 2) ∧
    (deloadify { name := "Back Squat", category := Category.compound,
                 sets := 4, repMin := 4, repMax := 6, rirTarget := 2 }).rirTarget =
      max 2 4 :=
  ⟨(deloadify_spec
      { name := "Back Squat", category := Category.compound,
        sets := 4, repMin := 4, repMax := 6, rirTarget := 2 }).1,
   (deloadify_spec
      { name := "Back Squat", category := Category.compound,
        sets := 4, repMin := 4, repMax := 6, rirTarget := 2 }).2.2.2.1⟩

/-- C4 (counterexample): the set-log bulk upsert path
(`upsertSetLogsBulk` → `withConcurrency`) only clamps the caller's
concurrency from below: a caller-supplied 10 yields 10 workers, not
5. -/
theorem concurrency_clamp_counterexample :
    upsertSetLogsBulkRunners 10 = 10 ∧
    runWithConcurrencyRunners 10 = 10 ∧
    upsertSetLogsBulkRunners 10 ≠ 5 := by
  refine ⟨by decide, by decide, by decide⟩

/-- C4 (amended): plan generation clamps the caller's concurrency into
[1, 5] (default 3), but the generic pool runners
(`runPool`, `withConcurrency`, `runWithConcurrency`) clamp only from
below at 1, so a set-log caller value above 5 is used as given; the
keyed set-log upsert itself passes the fixed in-range value 2. -/
theorem concurrency_clamping_spec :
    (∀ c : Option Int, 1 ≤ exerciseConcurrencyOf c ∧ exerciseConcurrencyOf c ≤ 5) ∧
    exerciseConcurrencyOf none = 3 ∧
    (∀ c : Int, runPoolRunners c = max 1 c) ∧
    (∀ c : Int, withConcurrencyRunners c = max 1 c) ∧
    (∀ c : Int, runWithConcurrencyRunners c = max 1 c) ∧
    upsertSetLogsConcurrency = 2 ∧
    (∀ c : Int, c ≤ 5 → upsertSetLogsBulkRunners c ≤ 5) ∧
    (∀ c : Int, 5 < c → upsertSetLogsBulkRunners c = c) := by
  refine ⟨?_, by decide, fun c => rfl, fun c => rfl, fun c => rfl, rfl, ?_, ?_⟩
  · intro c
    constructor
    · exact le_max_left 1 _
    · exact max_le (by norm_num) (min_le_right _ 5)
  · intro c hc
    exact max_le (by norm_num) hc
  · intro c hc
    exact max_eq_right (by omega)

/-- C4 (witness). -/
theorem concurrency_clamping_spec_witness :
    (1 ≤ exerciseConcurrencyOf (some 99) ∧ exerciseConcurrencyOf (some 99) ≤ 5) ∧
    upsertSetLogsBulkRunners 4 ≤ 5 ∧
    upsertSetLogsBulkRunners 9 = 9 :=
  ⟨concurrency_clamping_spec.1 (some 99),
   concurrency_clamping_spec.2.2.2.2.2.2.1 4 (by norm_num),
   concurrency_clamping_spec.2.2.2.2.2.2.2 9 (by norm_num)⟩

/-- C9 (counterexample): over a full plan-generation run the proactive
pacing pause never fires — the total pacing sleep is 0ms, so no 200ms
pause "takes effect" after every 20 dispatched requests. -/
theorem pacing_never_fires_counterexample : genPacingTotal = 0 := by
  decide

/-- C9 (amended): the per-exercise worker checks the payload's index
within its own day's batch (`idx > 0 && idx % 20 === 0`) and would
sleep 200ms when that held; every day's batch has at most 8 payloads,
so the check never fires and a full generation run performs no pacing
pause at all. -/
theorem pacing_spec :
    (∀ idx, 0 < idx → idx % 20 = 0 → pacingDelay idx = 200) ∧
    (∀ idx, idx = 0 ∨ idx % 20 ≠ 0 → pacingDelay idx = 0) ∧
    (∀ p ∈ genCells.enum, (dayPayloads p.1 p.2).length ≤ 8) ∧
    genPacingTotal = 0 := by
  refine ⟨?_, ?_, by decide, by decide⟩
  · intro idx h1 h2
    simp [pacingDelay, h1, h2]
  · intro idx h
    rcases h with h | h <;> simp [pacingDelay, h]

set_option maxRecDepth 40000 in
/-- C2: a full run against an always-succeeding store creates exactly
48 ProgramDay records (12 weeks × 4 day-types, week-ascending then
day-type-cycle order) and exactly 348 ProgramExercise records — the
sum over every (week, day-type) of the seeded list's length — and the
returned `{createdDays, createdExercises}` equal those counts and the
totals precomputed up front; the week-6 deload map never changes a
list's length. -/
theorem generate12WeekProgram_counts (pid : String) :
    genCreatedDays = 48 ∧
    genCreatedExercises = 348 ∧
    (genDays pid).length = 48 ∧
    genExercises.length = 348 ∧
    totalDays = 48 ∧
    totalExercisesEstimate = 348 ∧
    genCreatedDays = totalDays ∧
    genCreatedExercises = totalExercisesEstimate ∧
    genExercises.length =
      (genCells.map (fun c => (seedExercises c.dayType (hingeModeFor c.week)).length)).sum ∧
    ((genDays pid).map (fun d => (d.weekNumber, d.dayType)) =
      (List.range 12).flatMap (fun w => dayTypes.map (fun dt => (w + 1, dt)))) ∧
    (∀ dt hm, ((seedExercises dt hm).map deloadify).length = (seedExercises dt hm).length) := by
  refine ⟨rfl, rfl, rfl, rfl, rfl, rfl, rfl, rfl, rfl, rfl, ?_⟩
  intro dt hm
  exact List.length_map _ _

/-- C2 (witness). -/
theorem generate12WeekProgram_counts_witness :
    genCreatedDays = 48 ∧ genCreatedExercises = 348 ∧
    (genDays "p").length = 48 ∧ genCreatedExercises = totalExercisesEstimate :=
  ⟨(generate12WeekProgram_counts "p").1,
   (generate12WeekProgram_counts "p").2.1,
   (generate12WeekProgram_counts "p").2.2.1,
   (generate12WeekProgram_counts "p").2.2.2.2.2.2.2.1⟩

/-- C3: odd weeks select the deadlift hinge, even weeks the paused
RDL; the variant changes only slot 1 (the hinge) of the
lower-strength seed list — every other slot and every other
day-type's whole list are identical for both variants — and every
persisted ProgramDay carries the week's variant exactly on
lower-strength days and null on the other three day-types. -/
theorem hinge_alternation_spec :
    (∀ w, w % 2 = 1 → hingeModeFor w = HingeMode.deadlift) ∧
    (∀ w, w % 2 = 0 → hingeModeFor w = HingeMode.paused_rdl) ∧
    (∀ dt, dt ≠ DayType.lower_strength →
      ∀ m m', seedExercises dt m = seedExercises dt m') ∧
    (∀ j, j ≠ 1 →
      (seedExercises DayType.lower_strength HingeMode.deadlift).get? j =
      (seedExercises DayType.lower_strength HingeMode.paused_rdl).get? j) ∧
    ((seedExercises DayType.lower_strength HingeMode.deadlift).get? 1).map (fun e => e.name)
      = some "Conventional Deadlift (top set + 2 backoffs)" ∧
    ((seedExercises DayType.lower_strength HingeMode.paused_rdl).get? 1).map (fun e => e.name)
      = some "Paused RDL (2-sec pause mid-shin)" ∧
    (∀ pid, ∀ d ∈ genDays pid,
      d.hingeMode =
        if d.dayType = DayType.lower_strength then some (hingeModeFor d.weekNumber)
        else none) := by
  refine ⟨?_, ?_, ?_, ?_, rfl, rfl, ?_⟩
  · intro w h
    simp [hingeModeFor, h]
  · intro w h
    simp [hingeModeFor, h]
  · intro dt hdt m m'
    cases dt with
    | lower_strength => exact absurd rfl hdt
    | upper_strength => cases m <;> cases m' <;> rfl
    | upper_hypertrophy => cases m <;> cases m' <;> rfl
    | lower_hypertrophy => cases m <;> cases m' <;> rfl
  · intro j hj
    match j with
    | 0 => rfl
    | 1 => exact absurd rfl hj
    | (k + 2) => rfl
  · intro pid d hd
    simp only [genDays, List.mem_map] at hd
    obtain ⟨p, _, rfl⟩ := hd
    rfl

/-- C3 (witness). -/
theorem hinge_alternation_spec_witness :
    hingeModeFor 3 = HingeMode.deadlift ∧
    hingeModeFor 4 = HingeMode.paused_rdl ∧
    seedExercises DayType.upper_strength HingeMode.deadlift =
      seedExercises DayType.upper_strength HingeMode.paused_rdl ∧
    (seedExercises DayType.lower_strength HingeMode.deadlift).get? 0 =
      (seedExercises DayType.lower_strength HingeMode.paused_rdl).get? 0 ∧
    (mkDay "p" 0 { week := 1, orderIndex := 1, dayType := DayType.upper_strength }).hingeMode
      = none :=
  ⟨hinge_alternation_spec.1 3 (by norm_num),
   hinge_alternation_spec.2.1 4 (by norm_num),
   hinge_alternation_spec.2.2.1 DayType.upper_strength (by decide)
     HingeMode.deadlift HingeMode.paused_rdl,
   hinge_alternation_spec.2.2.2.1 0 (by norm_num),
   by
     have h := hinge_alternation_spec.2.2.2.2.2.2 "p"
       (mkDay "p" 0 { week := 1, orderIndex := 1, dayType := DayType.upper_strength })
       (by
         simp only [genDays, List.mem_map]
         exact ⟨(0, { week := 1, orderIndex := 1, dayType := DayType.upper_strength }),
           by decide, rfl⟩)
     simpa using h⟩

/-- Helper: a non-retryable (or budget-denied) failure stops the loop
at once with the error and no further wait recorded. -/
theorem retryLoop_stop {α : Type} (R : AppError → Bool) (C : Nat → Bool) (D : Nat → Nat)
    (e : AppError) (rest : CallTrace α) (n : Nat) (ws : List Nat)
    (h : (R e && C n) = false) :
    retryLoop R C D (Except.error e :: rest) n ws = some (Except.error e, ws.reverse) := by
  simp [retryLoop, h]

/-- Helper: a run of retryable failures inside the budget is absorbed,
recording one wait `D (n + k)` per failure. -/
theorem retryLoop_skip {α : Type} (R : AppError → Bool) (C : Nat → Bool) (D : Nat → Nat)
    (es : List AppError) (t : CallTrace α) (n : Nat) (ws : List Nat)
    (hR : ∀ e ∈ es, R e = true) (hC : ∀ k, k < es.length → C (n + k) = true) :
    retryLoop R C D (es.map Except.error ++ t) n ws =
      retryLoop R C D t (n + es.length)
        (((List.range es.length).map (fun k => D (n + k))).reverse ++ ws) := by
  induction es generalizing n ws with
  | nil => simp
  | cons e es ih =>
    have hRe : R e = true := hR e (by simp)
    have hCn : C n = true := by simpa using hC 0 (by simp)
    simp only [List.map_cons, List.cons_append, retryLoop, hRe, hCn, Bool.and_self, if_true,
      List.append_eq]
    rw [ih (n + 1) (D n :: ws) (fun x hx => hR x (List.mem_cons_of_mem e hx)) (fun k hk => by
      have := hC (k + 1) (by simpa using Nat.succ_lt_succ hk)
      simpa [Nat.add_assoc, Nat.add_comm 1 k] using this)]
    have hfun : (List.range es.length).map (fun k => D (n + 1 + k)) =
        (List.range es.length).map (fun k => D (n + (k + 1))) := by
      apply List.map_congr_left
      intro k _
      congr 1
      omega
    rw [hfun]
    have hrange : (List.range (es.length + 1)).map (fun k => D (n + k)) =
        D n :: (List.range es.length).map (fun k => D (n + (k + 1))) := by
      rw [List.range_succ_eq_map]
      simp [Function.comp, Nat.succ_eq_add_one]
    simp only [List.length_cons]
    rw [hrange]
    have hn : n + 1 + es.length = n + (es.length + 1) := by omega
    rw [hn, List.reverse_cons, List.append_assoc, List.singleton_append]

/-- C5: both retry wrappers retry only on the store's rate-limit
signal: a non-rate-limit error is rethrown on its first occurrence
with no wait recorded; a run of rate-limit failures within the
attempt budget (7 retries for `withBackoff`, 4 for `withRetry`) is
fully absorbed and the caller sees the success; one rate-limit
failure beyond the budget propagates the rate-limit error. -/
theorem retry_policy_spec {α : Type} (jit jit2 : Nat → Nat) :
    (∀ (e : AppError) (rest : CallTrace α), isRateLimit e = false →
      withBackoffRun jit (Except.error e :: rest) = some (Except.error e, [])) ∧
    (∀ (es : List AppError) (v : α) (rest : CallTrace α),
      (∀ e ∈ es, isRateLimit e = true) → es.length ≤ 7 →
      ∃ ws, withBackoffRun jit (es.map Except.error ++ Except.ok v :: rest) =
        some (Except.ok v, ws) ∧ ws.length = es.length) ∧
    (∀ (es : List AppError) (e : AppError) (rest : CallTrace α),
      (∀ x ∈ es, isRateLimit x = true) → es.length = 7 → isRateLimit e = true →
      ∃ ws, withBackoffRun jit (es.map Except.error ++ Except.error e :: rest) =
        some (Except.error e, ws) ∧ ws.length = 7) ∧
    (∀ (e : AppError) (rest : CallTrace α), isRetry429 e = false →
      withRetryRun jit2 (Except.error e :: rest) = some (Except.error e, [])) ∧
    (∀ (es : List AppError) (v : α) (rest : CallTrace α),
      (∀ e ∈ es, isRetry429 e = true) → es.length ≤ 4 →
      ∃ ws, withRetryRun jit2 (es.map Except.error ++ Except.ok v :: rest) =
        some (Except.ok v, ws) ∧ ws.length = es.length) ∧
    (∀ (es : List AppError) (e : AppError) (rest : CallTrace α),
      (∀ x ∈ es, isRetry429 x = true) → es.length = 4 → isRetry429 e = true →
      ∃ ws, withRetryRun jit2 (es.map Except.error ++ Except.error e :: rest) =
        some (Except.error e, ws) ∧ ws.length = 4) := by
  refine ⟨?_, ?_, ?_, ?_, ?_, ?_⟩
  · intro e rest he
    unfold withBackoffRun
    exact retryLoop_stop isRateLimit (fun n => decide (n + 1 ≤ 7))
      (fun n => 650 * 2 ^ n + jit n) e rest 0 [] (by simp [he])
  · intro es v rest hR hlen
    have hC : ∀ k, k < es.length → decide (0 + k + 1 ≤ 7) = true := by
      intro k hk
      exact decide_eq_true (by omega)
    have hs := retryLoop_skip isRateLimit (fun n => decide (n + 1 ≤ 7))
      (fun n => 650 * 2 ^ n + jit n) es (Except.ok v :: rest) 0 [] hR hC
    unfold withBackoffRun
    rw [hs]
    simp [retryLoop]
  · intro es e rest hR hlen hre
    have hC : ∀ k, k < es.length → decide (0 + k + 1 ≤ 7) = true := by
      intro k hk
      rw [hlen] at hk
      exact decide_eq_true (by omega)
    have hs := retryLoop_skip isRateLimit (fun n => decide (n + 1 ≤ 7))
      (fun n => 650 * 2 ^ n + jit n) es (Except.error e :: rest) 0 [] hR hC
    unfold withBackoffRun
    rw [hs]
    rw [retryLoop_stop isRateLimit (fun n => decide (n + 1 ≤ 7))
      (fun n => 650 * 2 ^ n + jit n) e rest _ _ (by rw [hlen]; simp)]
    simp [hlen]
  · intro e rest he
    unfold withRetryRun
    exact retryLoop_stop isRetry429 (fun n => decide (n < 5 - 1))
      (fun n => min 4000 (250 * 2 ^ n) + jit2 n) e rest 0 [] (by simp [he])
  · intro es v rest hR hlen
    have hC : ∀ k, k < es.length → decide (0 + k < 5 - 1) = true := by
      intro k hk
      exact decide_eq_true (by omega)
    have hs := retryLoop_skip isRetry429 (fun n => decide (n < 5 - 1))
      (fun n => min 4000 (250 * 2 ^ n) + jit2 n) es (Except.ok v :: rest) 0 [] hR hC
    unfold withRetryRun
    rw [hs]
    simp [retryLoop]
  · intro es e rest hR hlen hre
    have hC : ∀ k, k < es.length → decide (0 + k < 5 - 1) = true := by
      intro k hk
      rw [hlen] at hk
      exact decide_eq_true (by omega)
    have hs := retryLoop_skip isRetry429 (fun n => decide (n < 5 - 1))
      (fun n => min 4000 (250 * 2 ^ n) + jit2 n) es (Except.error e :: rest) 0 [] hR hC
    unfold withRetryRun
    rw [hs]
    rw [retryLoop_stop isRetry429 (fun n => decide (n < 5 - 1))
      (fun n => min 4000 (250 * 2 ^ n) + jit2 n) e rest _ _ (by rw [hlen]; simp)]
    simp [hlen]

/-- C5 (witness). -/
theorem retry_policy_spec_witness :
    withBackoffRun (fun _ => 0)
        ([Except.error { code := some 500, message := "boom" }] : CallTrace Nat) =
      some (Except.error { code := some 500, message := "boom" }, []) ∧
    (∃ ws, withBackoffRun (fun _ => 0)
        (([{ code := some 429 }, { code := some 429 }] : List AppError).map Except.error ++
          Except.ok 7 :: ([] : CallTrace Nat)) =
      some (Except.ok 7, ws) ∧ ws.length = 2) ∧
    (∃ ws, withBackoffRun (fun _ => 0)
        ((List.replicate 7 ({ code := some 429 } : AppError)).map Except.error ++
          Except.error { code := some 429 } :: ([] : CallTrace Nat)) =
      some (Except.error { code := some 429 }, ws) ∧ ws.length = 7) ∧
    withRetryRun (fun _ => 0)
        ([Except.error { code := some 500, message := "boom" }] : CallTrace Nat) =
      some (Except.error { code := some 500, message := "boom" }, []) := by
  have h := retry_policy_spec (α := Nat) (fun _ => 0) (fun _ => 0)
  refine ⟨h.1 _ [] (by decide), ?_, ?_, h.2.2.2.1 _ [] (by decide)⟩
  · exact h.2.1 [{ code := some 429 }, { code := some 429 }] 7 [] (by decide) (by decide)
  · exact h.2.2.1 (List.replicate 7 { code := some 429 }) { code := some 429 } []
      (by decide) (by decide) (by decide)

/-- C6: on the n-th rate-limited attempt (1-based attempt number
`n + 1`) `withBackoff` waits `650 * 2 ^ n + jitter n` with every
jitter below 250ms, and for three consecutive rate-limit responses
the three recorded waits are strictly increasing for every jitter
realization. -/
theorem backoff_growth_spec {α : Type} (jit : Nat → Nat) (hj : ∀ n, jit n < 250)
    (e1 e2 e3 : AppError) (v : α) (rest : CallTrace α)
    (h1 : isRateLimit e1 = true) (h2 : isRateLimit e2 = true) (h3 : isRateLimit e3 = true) :
    withBackoffRun jit
        (Except.error e1 :: Except.error e2 :: Except.error e3 :: Except.ok v :: rest) =
      some (Except.ok v,
        [650 * 2 ^ 0 + jit 0, 650 * 2 ^ 1 + jit 1, 650 * 2 ^ 2 + jit 2]) ∧
    650 * 2 ^ 0 + jit 0 < 650 * 2 ^ 1 + jit 1 ∧
    650 * 2 ^ 1 + jit 1 < 650 * 2 ^ 2 + jit 2 := by
  refine ⟨?_, ?_, ?_⟩
  · norm_num [withBackoffRun, retryLoop, h1, h2, h3]
  · have := hj 0
    norm_num
    omega
  · have := hj 1
    norm_num
    omega

/-- Helper: every payload built for day `k` references `k`. -/
theorem dayPayloads_programDayId (k : Nat) (c : Cell) :
    ∀ e ∈ dayPayloads k c, e.programDayId = k := by
  intro e he
  simp only [dayPayloads, List.mem_map] at he
  obtain ⟨p, _, rfl⟩ := he
  rfl

/-- Helper: exercise-create events whose day id is already seen keep a
trace fk-consistent. -/
theorem fkOkAux_exs (seen : List Nat) (l : List ProgramExerciseRec) (t : List GenEvent)
    (h : ∀ e ∈ l, e.programDayId ∈ seen) (ht : fkOkAux seen t) :
    fkOkAux seen (l.map GenEvent.exCreate ++ t) := by
  induction l with
  | nil => simpa using ht
  | cons e l ih =>
    refine ⟨h e (by simp), ?_⟩
    exact ih (fun x hx => h x (by simp [hx]))

/-- Helper: any prefix-closed list of generation blocks is
fk-consistent from any starting set of seen day ids. -/
theorem fkOkAux_blocks (pid : String)
    (sched : List ProgramExerciseRec → List ProgramExerciseRec)
    (hs : ∀ l e, e ∈ sched l → e ∈ l) :
    ∀ (L : List (Nat × Cell)) (seen : List Nat),
      fkOkAux seen (L.flatMap (fun p =>
        GenEvent.dayCreate (mkDay pid p.1 p.2) ::
          (sched (dayPayloads p.1 p.2)).map GenEvent.exCreate)) := by
  intro L
  induction L with
  | nil => intro seen; trivial
  | cons p L ih =>
    intro seen
    simp only [List.flatMap_cons, List.cons_append]
    show fkOkAux ((mkDay pid p.1 p.2).id :: seen) _
    rw [← List.append_nil ((sched (dayPayloads p.1 p.2)).map GenEvent.exCreate ++ _)]
    rw [List.append_assoc]
    refine fkOkAux_exs _ _ _ ?_ ?_
    · intro e he
      have : e ∈ dayPayloads p.1 p.2 := hs _ e he
      have := dayPayloads_programDayId p.1 p.2 e this
      simp [this, mkDay]
    · simpa using ih ((mkDay pid p.1 p.2).id :: seen)

/-- C7: for every schedule of each day's concurrent exercise writes
(any completion order, restricted to that day's own payload batch),
the write trace never issues an exercise create before the creating
event of its day, and every exercise payload of a day references
exactly the identifier its own day's create returned. -/
theorem day_before_exercises_spec (pid : String)
    (sched : List ProgramExerciseRec → List ProgramExerciseRec)
    (hs : ∀ l e, e ∈ sched l → e ∈ l) :
    fkOk (genTrace pid sched) ∧
    (∀ p ∈ genCells.enum, ∀ e ∈ sched (dayPayloads p.1 p.2),
      e.programDayId = (mkDay pid p.1 p.2).id) ∧
    (∀ e ∈ genExercises, ∃ d ∈ genDays pid, d.id = e.programDayId) := by
  refine ⟨?_, ?_, ?_⟩
  · exact fkOkAux_blocks pid sched hs genCells.enum []
  · intro p _ e he
    exact dayPayloads_programDayId p.1 p.2 e (hs _ e he)
  · intro e he
    simp only [genExercises, List.mem_flatMap] at he
    obtain ⟨p, hp, hep⟩ := he
    refine ⟨mkDay pid p.1 p.2, ?_, ?_⟩
    · simp only [genDays, List.mem_map]
      exact ⟨p, hp, rfl⟩
    · exact (dayPayloads_programDayId p.1 p.2 e hep).symm

/-- C7 (witness): the identity schedule (dispatch order) is a valid
schedule, and the resulting full trace is fk-consistent. -/
theorem day_before_exercises_spec_witness :
    fkOk (genTrace "p" (fun l => l)) :=
  (day_before_exercises_spec "p" (fun l => l) (fun _ _ h => h)).1

/-- C6 (witness). -/
theorem backoff_growth_spec_witness :
    withBackoffRun (fun _ => 0)
        (Except.error { code := some 429 } :: Except.error { code := some 429 } ::
          Except.error { code := some 429 } :: Except.ok 1 :: ([] : CallTrace Nat)) =
      some (Except.ok 1, [650 * 2 ^ 0 + 0, 650 * 2 ^ 1 + 0, 650 * 2 ^ 2 + 0]) ∧
    650 * 2 ^ 0 + 0 < 650 * 2 ^ 1 + 0 ∧
    650 * 2 ^ 1 + 0 < 650 * 2 ^ 2 + 0 :=
  backoff_growth_spec (fun _ => 0) (fun _ => by norm_num)
    { code := some 429 } { code := some 429 } { code := some 429 } 1 []
    (by decide) (by decide) (by decide)

/-- Helper: the lookup fold keeps its accumulator over a run with no
key match. -/
theorem lookup_foldl_no_match (pe : String) (n : Nat) (l : List SetLogRec)
    (acc : Option SetLogRec) (h : ∀ r ∈ l, keyMatches pe n r = false) :
    l.foldl (fun acc r => if keyMatches pe n r then some r else acc) acc = acc := by
  induction l generalizing acc with
  | nil => rfl
  | cons r l ih =>
    have hr := h r (by simp)
    simp only [List.foldl_cons, hr, Bool.false_eq_true, if_false]
    exact ih acc (fun x hx => h x (by simp [hx]))

/-- Helper: the lookup fold finds the unique key match. -/
theorem lookup_foldl_single (pe : String) (n : Nat) (l : List SetLogRec)
    (acc : Option SetLogRec) (r0 : SetLogRec)
    (h : l.filter (keyMatches pe n) = [r0]) :
    l.foldl (fun acc r => if keyMatches pe n r then some r else acc) acc = some r0 := by
  induction l generalizing acc with
  | nil => simp at h
  | cons r l ih =>
    by_cases hr : keyMatches pe n r = true
    · rw [List.filter_cons_of_pos hr] at h
      obtain ⟨rfl, hl⟩ : r = r0 ∧ l.filter (keyMatches pe n) = [] := by
        constructor
        · exact (List.cons_eq_cons.mp h).1
        · exact (List.cons_eq_cons.mp h).2
      simp only [List.foldl_cons, hr, if_true]
      exact lookup_foldl_no_match pe n l (some r) (by
        intro x hx
        have := List.filter_eq_nil.mp hl x hx
        simpa using this)
    · rw [List.filter_cons_of_neg hr] at h
      simp only [List.foldl_cons, hr, Bool.false_eq_true, if_false]
      exact ih acc h

/-- Helper: `lookupKey` on a unique-match listing. -/
theorem lookupKey_of_filter_single (l : List SetLogRec) (pe : String) (n : Nat)
    (r0 : SetLogRec) (h : l.filter (keyMatches pe n) = [r0]) :
    lookupKey l pe n = some r0 :=
  lookup_foldl_single pe n l none r0 h

/-- Helper: `lookupKey` on a listing with no match. -/
theorem lookupKey_of_filter_nil (l : List SetLogRec) (pe : String) (n : Nat)
    (h : l.filter (keyMatches pe n) = []) :
    lookupKey l pe n = none :=
  lookup_foldl_no_match pe n l none (by
    intro x hx
    have := List.filter_eq_nil.mp h x hx
    simpa using this)

/-- Helper: within the 500-document limit the listing is exactly the
workout's filter. -/
theorem listSetLogs_eq (st : LogStore) (wid : String)
    (h : (st.docs.filter (fun r => r.workoutLogId = wid)).length ≤ 500) :
    listSetLogs st wid = st.docs.filter (fun r => r.workoutLogId = wid) :=
  List.take_of_length_le h

/-- Helper: filtering the workout listing by key yields the store's
key filter. -/
theorem filterWid_km (st : LogStore) (wid pe : String) (n : Nat) :
    (st.docs.filter (fun r => r.workoutLogId = wid)).filter (keyMatches pe n) =
      docsForKey st wid pe n := by
  unfold docsForKey
  rw [List.filter_filter]
  apply List.filter_congr
  intro r _
  exact Bool.and_comm _ _

/-- Helper: a field patch never changes a document's id or key fields. -/
theorem applyPatch_preserves (s : UpsertSetInput) (docId : Nat) (r : SetLogRec) :
    (applyPatch s docId r).id = r.id ∧
    (applyPatch s docId r).workoutLogId = r.workoutLogId ∧
    (applyPatch s docId r).programExerciseId = r.programExerciseId ∧
    (applyPatch s docId r).setNumber = r.setNumber := by
  by_cases h : r.id = docId <;> simp [applyPatch, h]

/-- Helper: updating a document patches the key filter pointwise. -/
theorem docsForKey_update (st : LogStore) (wid pe : String) (n docId : Nat)
    (s : UpsertSetInput) :
    docsForKey (updateSetLog st docId s) wid pe n =
      (docsForKey st wid pe n).map (applyPatch s docId) := by
  unfold docsForKey updateSetLog
  rw [List.filter_map]
  congr 1
  apply List.filter_congr
  intro r _
  obtain ⟨_, h2, h3, h4⟩ := applyPatch_preserves s docId r
  simp [Function.comp, keyMatches, h2, h3, h4]

/-- Helper: updating a document patches the workout filter pointwise. -/
theorem filterWid_update (st : LogStore) (wid : String) (docId : Nat)
    (s : UpsertSetInput) :
    (updateSetLog st docId s).docs.filter (fun r => r.workoutLogId = wid) =
      (st.docs.filter (fun r => r.workoutLogId = wid)).map (applyPatch s docId) := by
  unfold updateSetLog
  rw [List.filter_map]
  congr 1
  apply List.filter_congr
  intro r _
  obtain ⟨_, h2, _, _⟩ := applyPatch_preserves s docId r
  simp [Function.comp, h2]

/-- Helper: a single-input upsert call reduced to its two branches. -/
theorem upsertSetLogs_one (st : LogStore) (wid : String) (s : UpsertSetInput) :
    upsertSetLogs st wid [s] =
      (match lookupKey (listSetLogs st wid) s.programExerciseId s.setNumber with
        | some found => updateSetLog st found.id s
        | none => createSetLog st wid s) := rfl

/-- C8: two invocations of the keyed set-log upsert with the same
composite key (workout id, exercise id, set number) — against any
store whose listing fits the 500-document page and already holds at
most one record for that key — leave exactly one record for the key,
whose payload fields match the latest input: the writer looks the key
up first and updates instead of creating when it finds a record. -/
theorem upsert_idempotent_spec (st : LogStore) (wid : String) (s1 s2 : UpsertSetInput)
    (hw500 : (st.docs.filter (fun r => r.workoutLogId = wid)).length < 500)
    (huniq : (docsForKey st wid s1.programExerciseId s1.setNumber).length ≤ 1)
    (hpe : s2.programExerciseId = s1.programExerciseId)
    (hn : s2.setNumber = s1.setNumber) :
    ∃ r : SetLogRec,
      docsForKey (upsertSetLogs (upsertSetLogs st wid [s1]) wid [s2]) wid
          s1.programExerciseId s1.setNumber = [r] ∧
      r.workoutLogId = wid ∧
      r.programExerciseId = s1.programExerciseId ∧
      r.setNumber = s1.setNumber ∧
      r.reps = s2.reps ∧ r.weight = s2.weight ∧ r.rir = s2.rir ∧ r.notes = s2.notes := by
  rcases hDK : docsForKey st wid s1.programExerciseId s1.setNumber with _ | ⟨r0, _ | ⟨r2, rest⟩⟩
  · -- no record with the key yet: first call creates, second updates
    have hlook1 : lookupKey (listSetLogs st wid) s1.programExerciseId s1.setNumber = none := by
      rw [listSetLogs_eq st wid (le_of_lt hw500)]
      apply lookupKey_of_filter_nil
      rw [filterWid_km]
      exact hDK
    have e1 : upsertSetLogs st wid [s1] = createSetLog st wid s1 := by
      rw [upsertSetLogs_one, hlook1]
    have hnew : (createSetLog st wid s1).docs = st.docs ++
        [{ id := st.nextId, workoutLogId := wid,
           programExerciseId := s1.programExerciseId, setNumber := s1.setNumber,
           reps := s1.reps, weight := s1.weight, rir := s1.rir, notes := s1.notes }] := rfl
    have hF1 : (createSetLog st wid s1).docs.filter (fun r => r.workoutLogId = wid) =
        st.docs.filter (fun r => r.workoutLogId = wid) ++
          [{ id := st.nextId, workoutLogId := wid,
             programExerciseId := s1.programExerciseId, setNumber := s1.setNumber,
             reps := s1.reps, weight := s1.weight, rir := s1.rir, notes := s1.notes }] := by
      rw [hnew, List.filter_append]
      congr 1
      simp
    have hDK1 : docsForKey (createSetLog st wid s1) wid
        s1.programExerciseId s1.setNumber =
        [{ id := st.nextId, workoutLogId := wid,
           programExerciseId := s1.programExerciseId, setNumber := s1.setNumber,
           reps := s1.reps, weight := s1.weight, rir := s1.rir, notes := s1.notes }] := by
      unfold docsForKey
      rw [hnew, List.filter_append]
      have : docsForKey st wid s1.programExerciseId s1.setNumber = [] := hDK
      unfold docsForKey at this
      rw [this]
      simp [keyMatches]
    have hlen1 : ((createSetLog st wid s1).docs.filter
        (fun r => r.workoutLogId = wid)).length ≤ 500 := by
      rw [hF1, List.length_append]
      simp only [List.length_singleton]
      omega
    have hlook2 : lookupKey (listSetLogs (createSetLog st wid s1) wid)
        s2.programExerciseId s2.setNumber =
        some { id := st.nextId, workoutLogId := wid,
               programExerciseId := s1.programExerciseId, setNumber := s1.setNumber,
               reps := s1.reps, weight := s1.weight, rir := s1.rir, notes := s1.notes } := by
      rw [hpe, hn, listSetLogs_eq _ wid hlen1]
      apply lookupKey_of_filter_single
      rw [filterWid_km]
      exact hDK1
    have e2 : upsertSetLogs (upsertSetLogs st wid [s1]) wid [s2] =
        updateSetLog (createSetLog st wid s1) st.nextId s2 := by
      rw [e1, upsertSetLogs_one, hlook2]
    refine ⟨{ id := st.nextId, workoutLogId := wid,
              programExerciseId := s1.programExerciseId, setNumber := s1.setNumber,
              reps := s2.reps, weight := s2.weight, rir := s2.rir, notes := s2.notes },
      ?_, rfl, rfl, rfl, rfl, rfl, rfl, rfl⟩
    rw [e2, docsForKey_update, hDK1]
    simp [applyPatch]
  · -- exactly one record with the key: both calls update it
    have hr0mem : r0 ∈ docsForKey st wid s1.programExerciseId s1.setNumber := by
      rw [hDK]
      simp
    have hr0 : r0.workoutLogId = wid ∧ r0.programExerciseId = s1.programExerciseId ∧
        r0.setNumber = s1.setNumber := by
      have := (List.mem_filter.mp hr0mem).2
      simpa [keyMatches] using this
    have hlook1 : lookupKey (listSetLogs st wid) s1.programExerciseId s1.setNumber =
        some r0 := by
      rw [listSetLogs_eq st wid (le_of_lt hw500)]
      apply lookupKey_of_filter_single
      rw [filterWid_km]
      exact hDK
    have e1 : upsertSetLogs st wid [s1] = updateSetLog st r0.id s1 := by
      rw [upsertSetLogs_one, hlook1]
    have hDK1 : docsForKey (updateSetLog st r0.id s1) wid
        s1.programExerciseId s1.setNumber = [applyPatch s1 r0.id r0] := by
      rw [docsForKey_update, hDK]
      rfl
    have hlen1 : ((updateSetLog st r0.id s1).docs.filter
        (fun r => r.workoutLogId = wid)).length ≤ 500 := by
      rw [filterWid_update, List.length_map]
      omega
    have hlook2 : lookupKey (listSetLogs (updateSetLog st r0.id s1) wid)
        s2.programExerciseId s2.setNumber = some (applyPatch s1 r0.id r0) := by
      rw [hpe, hn, listSetLogs_eq _ wid hlen1]
      apply lookupKey_of_filter_single
      rw [filterWid_km]
      exact hDK1
    have e2 : upsertSetLogs (upsertSetLogs st wid [s1]) wid [s2] =
        updateSetLog (updateSetLog st r0.id s1) (applyPatch s1 r0.id r0).id s2 := by
      rw [e1, upsertSetLogs_one, hlook2]
    have hfinal : docsForKey (upsertSetLogs (upsertSetLogs st wid [s1]) wid [s2]) wid
        s1.programExerciseId s1.setNumber =
        [applyPatch s2 (applyPatch s1 r0.id r0).id (applyPatch s1 r0.id r0)] := by
      rw [e2, docsForKey_update, hDK1]
      rfl
    obtain ⟨hid1, hw1, hp1, hs1⟩ := applyPatch_preserves s1 r0.id r0
    refine ⟨applyPatch s2 (applyPatch s1 r0.id r0).id (applyPatch s1 r0.id r0),
      hfinal, ?_, ?_, ?_, ?_, ?_, ?_, ?_⟩
    · rw [(applyPatch_preserves _ _ _).2.1, hw1, hr0.1]
    · rw [(applyPatch_preserves _ _ _).2.2.1, hp1, hr0.2.1]
    · rw [(applyPatch_preserves _ _ _).2.2.2, hs1, hr0.2.2]
    · simp [applyPatch]
    · simp [applyPatch]
    · simp [applyPatch]
    · simp [applyPatch]
  · -- impossible: more than one record for the key
    exfalso
    rw [hDK] at huniq
    simp at huniq

/-- C8 (witness). -/
theorem upsert_idempotent_spec_witness :
    ∃ r : SetLogRec,
      docsForKey
          (upsertSetLogs
            (upsertSetLogs { nextId := 0, docs := [] } "w"
              [{ programExerciseId := "e", setNumber := 1, reps := some 5 }])
            "w" [{ programExerciseId := "e", setNumber := 1, reps := some 8 }]) "w"
          "e" 1 = [r] ∧
      r.workoutLogId = "w" ∧
      r.programExerciseId = "e" ∧
      r.setNumber = 1 ∧
      r.reps = some 8 ∧ r.weight = none ∧ r.rir = none ∧ r.notes = none :=
  upsert_idempotent_spec { nextId := 0, docs := [] } "w"
    { programExerciseId := "e", setNumber := 1, reps := some 5 }
    { programExerciseId := "e", setNumber := 1, reps := some 8 }
    (by decide) (by decide) (by decide) (by decide)

/-- Helper: indexing a replicate below its length. -/
theorem get?_replicate_lt {α : Type} (a : α) (k i : Nat) (h : i < k) :
    (List.replicate k a).get? i = some a := by
  induction k generalizing i with
  | zero => omega
  | succ k ih =>
    cases i with
    | zero => rfl
    | succ i => exact ih i (by omega)

/-- The inductive invariant of the `runPool` step system: result slots
and runner arrays keep their lengths, every index below `nextIndex`
is either already written with its own worker result or claimed by
some runner, and a returned runner certifies that the queue was
exhausted. -/
structure PoolInv (items : List T) (worker : T → Nat → R) (numW : Nat)
    (s : PoolState R) : Prop where
  res_len : s.results.length = items.length
  tasks_len : s.tasks.length = numW
  done_len : s.done.length = numW
  cover : ∀ i, i < items.length → i < s.nextIndex →
    s.results.get? i = some ((items.get? i).map (fun x => worker x i)) ∨
    ∃ w, s.tasks.get? w = some (some i)
  done_big : ∀ w, s.done.get? w = some true → items.length ≤ s.nextIndex

/-- Helper: the invariant holds at `runPool` entry. -/
theorem poolInv_init (items : List T) (worker : T → Nat → R) (c : Nat) :
    PoolInv items worker (max 1 c) (initPoolState items.length c : PoolState R) := by
  refine ⟨by simp [initPoolState], by simp [initPoolState], by simp [initPoolState], ?_, ?_⟩
  · intro i hi hlt
    simp [initPoolState] at hlt
  · intro w hw
    exfalso
    rcases Nat.lt_or_ge w (max 1 c) with h | h
    · rw [show (initPoolState items.length c : PoolState R).done = List.replicate (max 1 c) false
          from rfl, get?_replicate_lt false _ w h] at hw
      simp at hw
    · rw [show (initPoolState items.length c : PoolState R).done = List.replicate (max 1 c) false
          from rfl, List.get?_eq_none.mpr (by simpa using h)] at hw
      simp at hw

/-- Helper: every `runPool` step preserves the invariant. -/
theorem poolInv_step {items : List T} {worker : T → Nat → R} {numW : Nat}
    {s s' : PoolState R} (hstep : PoolStep items worker s s')
    (hinv : PoolInv items worker numW s) : PoolInv items worker numW s' := by
  obtain ⟨hres, htl, hdl, hcover, hdone⟩ := hinv
  cases hstep with
  | claim w hw hidle hd hnd hlt =>
    refine ⟨hres, by simpa using htl, hdl, ?_, ?_⟩
    · intro i hi hlt2
      rcases Nat.lt_or_ge i s.nextIndex with hlt3 | hge
      · rcases hcover i hi hlt3 with hres2 | ⟨w2, hw2⟩
        · exact Or.inl hres2
        · refine Or.inr ⟨w2, ?_⟩
          have hne : w ≠ w2 := by
            intro he
            subst he
            rw [List.get?_eq_get hw, hidle] at hw2
            simp at hw2
          rw [List.get?_set_ne _ _ hne]
          exact hw2
      · have hii : i = s.nextIndex := by
          simp at hlt2
          omega
        subst hii
        refine Or.inr ⟨w, ?_⟩
        rw [List.get?_set_eq, List.get?_eq_get hw]
        rfl
    · intro w2 hw2
      have := hdone w2 hw2
      simp
      omega
  | exhaust w hw hidle hd hnd hge =>
    refine ⟨hres, htl, by simpa using hdl, ?_, ?_⟩
    · intro i hi hlt2
      exact hcover i hi (by omega)
    · intro w2 hw2
      simp
      omega
  | finish w hw i htask hi hr =>
    refine ⟨by simpa using hres, by simpa using htl, hdl, ?_, hdone⟩
    intro i2 hi2 hlt2
    by_cases hii : i2 = i
    · subst hii
      refine Or.inl ?_
      rw [List.get?_set_eq, List.get?_eq_get hr, List.get?_eq_get hi2]
      rfl
    · rcases hcover i2 hi2 hlt2 with hres2 | ⟨w2, hw2⟩
      · refine Or.inl ?_
        rw [List.get?_set_ne _ _ (fun he => hii he.symm)]
        exact hres2
      · refine Or.inr ⟨w2, ?_⟩
        have hne : w ≠ w2 := by
          intro he
          subst he
          rw [List.get?_eq_get hw, htask] at hw2
          simp at hw2
          exact hii hw2.symm
        rw [List.get?_set_ne _ _ hne]
        exact hw2

/-- Helper: the invariant holds at every reachable state. -/
theorem poolInv_reach {items : List T} {worker : T → Nat → R} {numW : Nat}
    {s0 s : PoolState R}
    (hreach : Relation.ReflTransGen (PoolStep items worker) s0 s)
    (hinv : PoolInv items worker numW s0) : PoolInv items worker numW s := by
  induction hreach with
  | refl => exact hinv
  | tail _ hstep ih => exact poolInv_step hstep ih

/-- C10: for every input list, every (pure) worker, every concurrency
value and every interleaving of the runners, when `runPool`'s runner
pool has drained (`Promise.all` resolved), the results array has the
input's length and slot `i` holds the worker's value for the i-th
input item. -/
theorem runPool_positional {T R : Type} (items : List T) (worker : T → Nat → R)
    (c : Nat) (s : PoolState R)
    (hreach : Relation.ReflTransGen (PoolStep items worker)
      (initPoolState items.length c) s)
    (hdone : PoolDone s) :
    s.results.length = items.length ∧
    ∀ i, i < items.length →
      s.results.get? i = some ((items.get? i).map (fun x => worker x i)) := by
  obtain ⟨hres, htl, hdl, hcover, hdoneBig⟩ :=
    poolInv_reach hreach (poolInv_init items worker c)
  refine ⟨hres, ?_⟩
  intro i hi
  have hall : items.length ≤ s.nextIndex := by
    have h0 : s.done.get? 0 = some true := by
      refine hdone.1 0 ?_
      rw [hdl]
      exact Nat.lt_of_lt_of_le Nat.zero_lt_one (Nat.le_max_left 1 c)
    exact hdoneBig 0 h0
  rcases hcover i hi (by omega) with h | ⟨w, hw⟩
  · exact h
  · exfalso
    have hwlt : w < s.tasks.length := by
      rcases List.get?_eq_some.mp hw with ⟨h, _⟩
      exact h
    have hnone := hdone.2 w hwlt
    rw [hnone] at hw
    simp at hw

/-- C10 (witness): a concrete two-item run with one runner. -/
theorem runPool_positional_witness :
    ([some 10, some 21] : List (Option Nat)).get? 0 = some (some 10) ∧
    ([some 10, some 21] : List (Option Nat)).get? 1 = some (some 21) := by
  have h1 : PoolStep ([10, 20] : List Nat) (fun x i => x + i)
      ⟨0, [none, none], [none], [false]⟩ ⟨1, [none, none], [some 0], [false]⟩ :=
    PoolStep.claim ⟨0, [none, none], [none], [false]⟩ 0 (by decide) rfl (by decide) rfl
      (by decide)
  have h2 : PoolStep ([10, 20] : List Nat) (fun x i => x + i)
      ⟨1, [none, none], [some 0], [false]⟩ ⟨1, [some 10, none], [none], [false]⟩ :=
    PoolStep.finish ⟨1, [none, none], [some 0], [false]⟩ 0 (by decide) 0 rfl (by decide)
      (by decide)
  have h3 : PoolStep ([10, 20] : List Nat) (fun x i => x + i)
      ⟨1, [some 10, none], [none], [false]⟩ ⟨2, [some 10, none], [some 1], [false]⟩ :=
    PoolStep.claim ⟨1, [some 10, none], [none], [false]⟩ 0 (by decide) rfl (by decide) rfl
      (by decide)
  have h4 : PoolStep ([10, 20] : List Nat) (fun x i => x + i)
      ⟨2, [some 10, none], [some 1], [false]⟩ ⟨2, [some 10, some 21], [none], [false]⟩ :=
    PoolStep.finish ⟨2, [some 10, none], [some 1], [false]⟩ 0 (by decide) 1 rfl (by decide)
      (by decide)
  have h5 : PoolStep ([10, 20] : List Nat) (fun x i => x + i)
      ⟨2, [some 10, some 21], [none], [false]⟩ ⟨3, [some 10, some 21], [none], [true]⟩ :=
    PoolStep.exhaust ⟨2, [some 10, some 21], [none], [false]⟩ 0 (by decide) rfl (by decide)
      rfl (by decide)
  have hchain : Relation.ReflTransGen
      (PoolStep ([10, 20] : List Nat) (fun x i => x + i))
      (initPoolState ([10, 20] : List Nat).length 1)
      ⟨3, [some 10, some 21], [none], [true]⟩ :=
    Relation.ReflTransGen.head h1 (Relation.ReflTransGen.head h2
      (Relation.ReflTransGen.head h3 (Relation.ReflTransGen.head h4
        (Relation.ReflTransGen.head h5 Relation.ReflTransGen.refl))))
  have h := runPool_positional [10, 20] (fun x i => x + i) 1
    ⟨3, [some 10, some 21], [none], [true]⟩ hchain
    ⟨by decide, by decide⟩
  exact ⟨h.2 0 (by decide), h.2 1 (by decide)⟩

/-- C9 (witness). -/
theorem pacing_spec_witness :
    pacingDelay 20 = 200 ∧ pacingDelay 7 = 0 ∧
    (dayPayloads 0 { week := 1, orderIndex := 1, dayType := DayType.upper_strength }).length ≤ 8 :=
  ⟨pacing_spec.1 20 (by norm_num) (by norm_num),
   pacing_spec.2.1 7 (Or.inr (by norm_num)),
   pacing_spec.2.2.1 (0, { week := 1, orderIndex := 1, dayType := DayType.upper_strength })
     (by decide)⟩

end ProgramGen
